import Mathlib

/-!
Shallow embedding, in Lean 4, of the deferred Web Push delivery subsystem of
the period-tracker repository (Cloudflare Worker: Hono routes in `index.ts`
plus `webpush.ts`).

Bytes are modelled as `List Nat` with every element `< 256` (a `Uint8Array`).
External cryptographic primitives provided by `crypto.subtle` (SHA-256, HKDF,
ECDH, AES-128-GCM, ECDSA) are parameters of the definitions that use them,
constrained only by the interface laws the surrounding code relies on; the
byte-level plumbing (base64url codec, UTF-8 encoding, concatenation, wire
formats, HTTP handler logic, dispatcher sweep) is embedded concretely from the
source.
-/

/-! ### UTF-8 encoding (`new TextEncoder().encode(...)`) -/

/-- UTF-8 encoding of a single character, as `TextEncoder` produces it
(bit operations written with division and remainder). -/
def utf8Char (c : Char) : List Nat :=
  let n := c.toNat
  if n < 128 then [n]
  else if n < 2048 then [192 + n / 64, 128 + n % 64]
  else if n < 65536 then [224 + n / 4096, 128 + n / 64 % 64, 128 + n % 64]
  else [240 + n / 262144, 128 + n / 4096 % 64, 128 + n / 64 % 64, 128 + n % 64]

/-- `new TextEncoder().encode(s)`: UTF-8 bytes of a string. -/
def strBytes (s : String) : List Nat := s.data.flatMap utf8Char

theorem utf8Char_lt (c : Char) : ∀ x ∈ utf8Char c, x < 256 := by
  have hv : c.toNat < 1114112 := by
    rcases c.valid with h | ⟨h1, h2⟩ <;> (simp [Char.toNat] at *; omega)
  intro x hx
  simp only [utf8Char] at hx
  split at hx
  · simp only [List.mem_cons, List.not_mem_nil, or_false] at hx; omega
  · split at hx
    · simp only [List.mem_cons, List.not_mem_nil, or_false] at hx
      rcases hx with rfl | rfl <;> omega
    · split at hx
      · simp only [List.mem_cons, List.not_mem_nil, or_false] at hx
        rcases hx with rfl | rfl | rfl <;> omega
      · simp only [List.mem_cons, List.not_mem_nil, or_false] at hx
        rcases hx with rfl | rfl | rfl | rfl <;> omega

theorem strBytes_lt (s : String) : ∀ x ∈ strBytes s, x < 256 := by
  intro x hx
  rw [strBytes, List.mem_flatMap] at hx
  obtain ⟨c, _, hc⟩ := hx
  exact utf8Char_lt c x hc

/-! ### Base64 / base64url codec (`webpush.ts` lines 245–263)

`uint8ArrayToBase64url` is `btoa` followed by the character replacements
`+ → -`, `/ → _` and stripping of trailing `=`; `base64urlToUint8Array` is
the reverse replacements, re-adding the stripped padding, then `atob`. -/

/-- The standard base64 alphabet, as `btoa` uses it: index 0–63 to character. -/
def b64Tbl (n : Nat) : Char :=
  if n < 26 then Char.ofNat (65 + n)
  else if n < 52 then Char.ofNat (97 + (n - 26))
  else if n < 62 then Char.ofNat (48 + (n - 52))
  else if n = 62 then '+'
  else '/'

/-- Value of a base64 alphabet character (inverse of `b64Tbl`; other input
is junk, as `atob` would reject it). -/
def b64Val (c : Char) : Nat :=
  let n := c.toNat
  if 65 ≤ n ∧ n ≤ 90 then n - 65
  else if 97 ≤ n ∧ n ≤ 122 then n - 97 + 26
  else if 48 ≤ n ∧ n ≤ 57 then n - 48 + 52
  else if n = 43 then 62
  else if n = 47 then 63
  else 0

/-- `btoa`: standard base64 with `=` padding, 3 bytes to 4 characters. -/
def btoaList : List Nat → List Char
  | [] => []
  | [a] => [b64Tbl (a / 4), b64Tbl ((a % 4) * 16), '=', '=']
  | [a, b] => [b64Tbl (a / 4), b64Tbl ((a % 4) * 16 + b / 16),
               b64Tbl ((b % 16) * 4), '=']
  | a :: b :: c :: rest =>
      b64Tbl (a / 4) :: b64Tbl ((a % 4) * 16 + b / 16)
        :: b64Tbl ((b % 16) * 4 + c / 64) :: b64Tbl (c % 64) :: btoaList rest

/-- `atob`: decode padded base64, 4 characters to 3 bytes, honouring a
final `=`/`==` padding group. -/
def atobList : List Char → List Nat
  | a :: b :: c :: d :: rest =>
      if c = '=' then [b64Val a * 4 + b64Val b / 16]
      else if d = '=' then
        [b64Val a * 4 + b64Val b / 16, (b64Val b % 16) * 16 + b64Val c / 4]
      else
        (b64Val a * 4 + b64Val b / 16) :: ((b64Val b % 16) * 16 + b64Val c / 4)
          :: ((b64Val c % 4) * 64 + b64Val d) :: atobList rest
  | _ => []

/-- `.replace(/\+/g, "-").replace(/\//g, "_")` on one character. -/
def urlChar (c : Char) : Char :=
  if c = '+' then '-' else if c = '/' then '_' else c

/-- The reverse replacements: `-` back to `+` and `_` back to `/`. -/
def unurlChar (c : Char) : Char :=
  if c = '-' then '+' else if c = '_' then '/' else c

/-- `.replace(/=+$/, "")`: strip trailing `=` characters. -/
def stripTrailingEq (l : List Char) : List Char :=
  (l.reverse.dropWhile (· = '=')).reverse

/-- `uint8ArrayToBase64url` (webpush.ts line 257). -/
def uint8ArrayToBase64url (bytes : List Nat) : List Char :=
  stripTrailingEq ((btoaList bytes).map urlChar)

/-- `base64urlToUint8Array` (webpush.ts line 245): reverse replacements,
restore the stripped `=` padding to a multiple of 4, then `atob`. -/
def base64urlToUint8Array (s : List Char) : List Nat :=
  let base64 := s.map unurlChar
  let pad := (4 - base64.length % 4) % 4
  atobList (base64 ++ List.replicate pad '=')

/-- Characters the base64url encoder may emit. -/
def isB64UrlChar (c : Char) : Prop :=
  (65 ≤ c.toNat ∧ c.toNat ≤ 90) ∨ (97 ≤ c.toNat ∧ c.toNat ≤ 122) ∨
  (48 ≤ c.toNat ∧ c.toNat ≤ 57) ∨ c = '-' ∨ c = '_'

instance (c : Char) : Decidable (isB64UrlChar c) := by
  unfold isB64UrlChar; infer_instance

/-! #### Codec lemmas -/

theorem b64Val_b64Tbl_fin : ∀ n : Fin 64, b64Val (b64Tbl n.val) = n.val := by
  decide

theorem b64Val_b64Tbl (n : Nat) (h : n < 64) : b64Val (b64Tbl n) = n :=
  b64Val_b64Tbl_fin ⟨n, h⟩

theorem urlChar_b64Tbl_good_fin : ∀ n : Fin 64, isB64UrlChar (urlChar (b64Tbl n.val)) := by
  decide

theorem urlChar_b64Tbl_good (n : Nat) (h : n < 64) : isB64UrlChar (urlChar (b64Tbl n)) :=
  urlChar_b64Tbl_good_fin ⟨n, h⟩

theorem unurl_url_b64Tbl_fin : ∀ n : Fin 64, unurlChar (urlChar (b64Tbl n.val)) = b64Tbl n.val := by
  decide

theorem unurl_url_b64Tbl (n : Nat) (h : n < 64) : unurlChar (urlChar (b64Tbl n)) = b64Tbl n :=
  unurl_url_b64Tbl_fin ⟨n, h⟩

theorem isB64UrlChar_ne_eq {c : Char} (h : isB64UrlChar c) : c ≠ '=' := by
  rcases h with h | h | h | h | h <;> first
    | (subst h; decide)
    | (intro hc; subst hc; revert h; decide)

theorem b64Tbl_ne_eq_fin : ∀ n : Fin 64, b64Tbl n.val ≠ '=' := by decide

theorem b64Tbl_ne_eq (n : Nat) (h : n < 64) : b64Tbl n ≠ '=' :=
  b64Tbl_ne_eq_fin ⟨n, h⟩

theorem stripTrailingEq_append (x y : List Char) (hx : ∀ c ∈ x, c ≠ '=') :
    stripTrailingEq (x ++ y) = x ++ stripTrailingEq y := by
  unfold stripTrailingEq
  rw [List.reverse_append, List.dropWhile_append]
  have hxdrop : List.dropWhile (fun c => decide (c = '=')) x.reverse = x.reverse := by
    cases hxr : x.reverse with
    | nil => rfl
    | cons a t =>
        have ha : a ∈ x := by
          have : a ∈ x.reverse := by rw [hxr]; exact List.mem_cons_self a t
          simpa using this
        rw [List.dropWhile_cons, if_neg (by simpa using hx a ha)]
  by_cases hy : (List.dropWhile (fun c => decide (c = '=')) y.reverse).isEmpty
  · rw [if_pos hy, hxdrop, List.reverse_reverse]
    rw [List.isEmpty_iff] at hy
    rw [hy, List.reverse_nil, List.append_nil]
  · rw [if_neg hy, List.reverse_append, List.reverse_reverse]

theorem atob_btoa (bs : List Nat) (h : ∀ x ∈ bs, x < 256) :
    atobList (btoaList bs) = bs := by
  induction bs using btoaList.induct with
  | case1 => rfl
  | case2 a =>
      have ha : a < 256 := h a (by simp)
      rw [btoaList, atobList, if_pos rfl, b64Val_b64Tbl _ (by omega : a / 4 < 64),
        b64Val_b64Tbl _ (by omega : (a % 4) * 16 < 64)]
      have : a / 4 * 4 + a % 4 * 16 / 16 = a := by omega
      rw [this]
  | case3 a b =>
      have ha : a < 256 := h a (by simp)
      have hb : b < 256 := h b (by simp)
      have h1 : a / 4 < 64 := by omega
      have h2 : (a % 4) * 16 + b / 16 < 64 := by omega
      have h3 : (b % 16) * 4 < 64 := by omega
      rw [btoaList, atobList, if_neg (b64Tbl_ne_eq _ h3), if_pos rfl,
        b64Val_b64Tbl _ h1, b64Val_b64Tbl _ h2, b64Val_b64Tbl _ h3]
      have e1 : a / 4 * 4 + (a % 4 * 16 + b / 16) / 16 = a := by omega
      have e2 : (a % 4 * 16 + b / 16) % 16 * 16 + b % 16 * 4 / 4 = b := by omega
      rw [e1, e2]
  | case4 a b c rest ih =>
      have ha : a < 256 := h a (by simp)
      have hb : b < 256 := h b (by simp)
      have hc : c < 256 := h c (by simp)
      have hrest : ∀ x ∈ rest, x < 256 := fun x hx => h x (by simp [hx])
      have h1 : a / 4 < 64 := by omega
      have h2 : (a % 4) * 16 + b / 16 < 64 := by omega
      have h3 : (b % 16) * 4 + c / 64 < 64 := by omega
      have h4 : c % 64 < 64 := by omega
      rw [btoaList, atobList, if_neg (b64Tbl_ne_eq _ h3), if_neg (b64Tbl_ne_eq _ h4),
        b64Val_b64Tbl _ h1, b64Val_b64Tbl _ h2, b64Val_b64Tbl _ h3, b64Val_b64Tbl _ h4]
      have e1 : a / 4 * 4 + (a % 4 * 16 + b / 16) / 16 = a := by omega
      have e2 : (a % 4 * 16 + b / 16) % 16 * 16 + (b % 16 * 4 + c / 64) / 4 = b := by omega
      have e3 : (b % 16 * 4 + c / 64) % 4 * 64 + c % 64 = c := by omega
      rw [e1, e2, e3, ih hrest]

theorem uint8ArrayToBase64url_nil : uint8ArrayToBase64url [] = [] := rfl

theorem uint8ArrayToBase64url_one (a : Nat) (ha : a < 256) :
    uint8ArrayToBase64url [a]
      = [urlChar (b64Tbl (a / 4)), urlChar (b64Tbl ((a % 4) * 16))] := by
  have h1 : a / 4 < 64 := by omega
  have h2 : (a % 4) * 16 < 64 := by omega
  rw [uint8ArrayToBase64url, btoaList]
  rw [show List.map urlChar [b64Tbl (a / 4), b64Tbl ((a % 4) * 16), '=', '=']
      = [urlChar (b64Tbl (a / 4)), urlChar (b64Tbl ((a % 4) * 16))] ++ ['=', '='] by
    simp [urlChar]]
  rw [stripTrailingEq_append _ _ (by
    intro ch hch
    simp only [List.mem_cons, List.not_mem_nil, or_false] at hch
    rcases hch with rfl | rfl
    · exact isB64UrlChar_ne_eq (urlChar_b64Tbl_good _ h1)
    · exact isB64UrlChar_ne_eq (urlChar_b64Tbl_good _ h2))]
  rw [show stripTrailingEq ['=', '='] = [] by decide, List.append_nil]

theorem uint8ArrayToBase64url_two (a b : Nat) (ha : a < 256) (hb : b < 256) :
    uint8ArrayToBase64url [a, b]
      = [urlChar (b64Tbl (a / 4)), urlChar (b64Tbl ((a % 4) * 16 + b / 16)),
         urlChar (b64Tbl ((b % 16) * 4))] := by
  have h1 : a / 4 < 64 := by omega
  have h2 : (a % 4) * 16 + b / 16 < 64 := by omega
  have h3 : (b % 16) * 4 < 64 := by omega
  rw [uint8ArrayToBase64url, btoaList]
  rw [show List.map urlChar [b64Tbl (a / 4), b64Tbl ((a % 4) * 16 + b / 16),
        b64Tbl ((b % 16) * 4), '=']
      = [urlChar (b64Tbl (a / 4)), urlChar (b64Tbl ((a % 4) * 16 + b / 16)),
         urlChar (b64Tbl ((b % 16) * 4))] ++ ['='] by
    simp [urlChar]]
  rw [stripTrailingEq_append _ _ (by
    intro ch hch
    simp only [List.mem_cons, List.not_mem_nil, or_false] at hch
    rcases hch with rfl | rfl | rfl
    · exact isB64UrlChar_ne_eq (urlChar_b64Tbl_good _ h1)
    · exact isB64UrlChar_ne_eq (urlChar_b64Tbl_good _ h2)
    · exact isB64UrlChar_ne_eq (urlChar_b64Tbl_good _ h3))]
  rw [show stripTrailingEq ['='] = [] by decide, List.append_nil]

theorem uint8ArrayToBase64url_cons (a b c : Nat) (rest : List Nat)
    (ha : a < 256) (hb : b < 256) (hc : c < 256) :
    uint8ArrayToBase64url (a :: b :: c :: rest)
      = urlChar (b64Tbl (a / 4)) :: urlChar (b64Tbl ((a % 4) * 16 + b / 16))
        :: urlChar (b64Tbl ((b % 16) * 4 + c / 64)) :: urlChar (b64Tbl (c % 64))
        :: uint8ArrayToBase64url rest := by
  have h1 : a / 4 < 64 := by omega
  have h2 : (a % 4) * 16 + b / 16 < 64 := by omega
  have h3 : (b % 16) * 4 + c / 64 < 64 := by omega
  have h4 : c % 64 < 64 := by omega
  rw [uint8ArrayToBase64url, btoaList]
  rw [show List.map urlChar (b64Tbl (a / 4) :: b64Tbl ((a % 4) * 16 + b / 16)
        :: b64Tbl ((b % 16) * 4 + c / 64) :: b64Tbl (c % 64) :: btoaList rest)
      = [urlChar (b64Tbl (a / 4)), urlChar (b64Tbl ((a % 4) * 16 + b / 16)),
         urlChar (b64Tbl ((b % 16) * 4 + c / 64)), urlChar (b64Tbl (c % 64))]
        ++ List.map urlChar (btoaList rest) by simp]
  rw [stripTrailingEq_append _ _ (by
    intro ch hch
    simp only [List.mem_cons, List.not_mem_nil, or_false] at hch
    rcases hch with rfl | rfl | rfl | rfl
    · exact isB64UrlChar_ne_eq (urlChar_b64Tbl_good _ h1)
    · exact isB64UrlChar_ne_eq (urlChar_b64Tbl_good _ h2)
    · exact isB64UrlChar_ne_eq (urlChar_b64Tbl_good _ h3)
    · exact isB64UrlChar_ne_eq (urlChar_b64Tbl_good _ h4))]
  rfl

theorem restore_padding (bs : List Nat) (h : ∀ x ∈ bs, x < 256) :
    List.map unurlChar (uint8ArrayToBase64url bs)
      ++ List.replicate
          ((4 - (List.map unurlChar (uint8ArrayToBase64url bs)).length % 4) % 4) '='
    = btoaList bs := by
  induction bs using btoaList.induct with
  | case1 => rfl
  | case2 a =>
      have ha : a < 256 := h a (by simp)
      have h1 : a / 4 < 64 := by omega
      have h2 : (a % 4) * 16 < 64 := by omega
      rw [uint8ArrayToBase64url_one a ha]
      rw [show List.map unurlChar [urlChar (b64Tbl (a / 4)), urlChar (b64Tbl ((a % 4) * 16))]
          = [b64Tbl (a / 4), b64Tbl ((a % 4) * 16)] by
        simp [unurl_url_b64Tbl _ h1, unurl_url_b64Tbl _ h2]]
      rw [btoaList]
      rfl
  | case3 a b =>
      have ha : a < 256 := h a (by simp)
      have hb : b < 256 := h b (by simp)
      have h1 : a / 4 < 64 := by omega
      have h2 : (a % 4) * 16 + b / 16 < 64 := by omega
      have h3 : (b % 16) * 4 < 64 := by omega
      rw [uint8ArrayToBase64url_two a b ha hb]
      rw [show List.map unurlChar [urlChar (b64Tbl (a / 4)),
            urlChar (b64Tbl ((a % 4) * 16 + b / 16)), urlChar (b64Tbl ((b % 16) * 4))]
          = [b64Tbl (a / 4), b64Tbl ((a % 4) * 16 + b / 16), b64Tbl ((b % 16) * 4)] by
        simp [unurl_url_b64Tbl _ h1, unurl_url_b64Tbl _ h2, unurl_url_b64Tbl _ h3]]
      rw [btoaList]
      rfl
  | case4 a b c rest ih =>
      have ha : a < 256 := h a (by simp)
      have hb : b < 256 := h b (by simp)
      have hc : c < 256 := h c (by simp)
      have hrest : ∀ x ∈ rest, x < 256 := fun x hx => h x (by simp [hx])
      have h1 : a / 4 < 64 := by omega
      have h2 : (a % 4) * 16 + b / 16 < 64 := by omega
      have h3 : (b % 16) * 4 + c / 64 < 64 := by omega
      have h4 : c % 64 < 64 := by omega
      rw [uint8ArrayToBase64url_cons a b c rest ha hb hc]
      rw [show List.map unurlChar (urlChar (b64Tbl (a / 4))
            :: urlChar (b64Tbl ((a % 4) * 16 + b / 16))
            :: urlChar (b64Tbl ((b % 16) * 4 + c / 64)) :: urlChar (b64Tbl (c % 64))
            :: uint8ArrayToBase64url rest)
          = b64Tbl (a / 4) :: b64Tbl ((a % 4) * 16 + b / 16)
            :: b64Tbl ((b % 16) * 4 + c / 64) :: b64Tbl (c % 64)
            :: List.map unurlChar (uint8ArrayToBase64url rest) by
        simp [unurl_url_b64Tbl _ h1, unurl_url_b64Tbl _ h2,
          unurl_url_b64Tbl _ h3, unurl_url_b64Tbl _ h4]]
      simp only [List.cons_append, List.length_cons]
      have hp : (4 - ((List.map unurlChar (uint8ArrayToBase64url rest)).length
            + 1 + 1 + 1 + 1) % 4) % 4
          = (4 - (List.map unurlChar (uint8ArrayToBase64url rest)).length % 4) % 4 := by
        omega
      rw [hp, ih hrest, btoaList]

theorem b64url_roundtrip (bs : List Nat) (h : ∀ x ∈ bs, x < 256) :
    base64urlToUint8Array (uint8ArrayToBase64url bs) = bs := by
  simp only [base64urlToUint8Array]
  rw [restore_padding bs h]
  exact atob_btoa bs h

theorem uint8ArrayToBase64url_chars (bs : List Nat) (h : ∀ x ∈ bs, x < 256) :
    ∀ c ∈ uint8ArrayToBase64url bs, isB64UrlChar c := by
  induction bs using btoaList.induct with
  | case1 => intro c hc; rw [uint8ArrayToBase64url_nil] at hc; cases hc
  | case2 a =>
      have ha : a < 256 := h a (by simp)
      intro c hc
      rw [uint8ArrayToBase64url_one a ha] at hc
      simp only [List.mem_cons, List.not_mem_nil, or_false] at hc
      rcases hc with rfl | rfl
      · exact urlChar_b64Tbl_good _ (by omega)
      · exact urlChar_b64Tbl_good _ (by omega)
  | case3 a b =>
      have ha : a < 256 := h a (by simp)
      have hb : b < 256 := h b (by simp)
      intro c hc
      rw [uint8ArrayToBase64url_two a b ha hb] at hc
      simp only [List.mem_cons, List.not_mem_nil, or_false] at hc
      rcases hc with rfl | rfl | rfl
      · exact urlChar_b64Tbl_good _ (by omega)
      · exact urlChar_b64Tbl_good _ (by omega)
      · exact urlChar_b64Tbl_good _ (by omega)
  | case4 a b c rest ih =>
      have ha : a < 256 := h a (by simp)
      have hb : b < 256 := h b (by simp)
      have hc : c < 256 := h c (by simp)
      have hrest : ∀ x ∈ rest, x < 256 := fun x hx => h x (by simp [hx])
      intro ch hch
      rw [uint8ArrayToBase64url_cons a b c rest ha hb hc] at hch
      simp only [List.mem_cons] at hch
      rcases hch with rfl | rfl | rfl | rfl | hch
      · exact urlChar_b64Tbl_good _ (by omega)
      · exact urlChar_b64Tbl_good _ (by omega)
      · exact urlChar_b64Tbl_good _ (by omega)
      · exact urlChar_b64Tbl_good _ (by omega)
      · exact ih hrest ch hch

theorem isB64UrlChar_nice {c : Char} (h : isB64UrlChar c) :
    c ≠ '+' ∧ c ≠ '/' ∧ c ≠ '=' ∧ c ≠ '.' := by
  rcases h with h | h | h | h | h <;>
    first
      | (subst h; decide)
      | (refine ⟨?_, ?_, ?_, ?_⟩ <;> (intro hc; subst hc; revert h; decide))

/-- C10: the base64url codec round-trips: decoding an encoded byte array gives
it back; the encoder never emits `+`, `/` or `=`; the decoder (which restores
the stripped padding before decoding, see `base64urlToUint8Array`) is a left
inverse of the encoder. -/
theorem base64url_codec_roundtrip (b : List Nat) (h : ∀ x ∈ b, x < 256) :
    base64urlToUint8Array (uint8ArrayToBase64url b) = b
      ∧ ∀ c ∈ uint8ArrayToBase64url b, c ≠ '+' ∧ c ≠ '/' ∧ c ≠ '=' := by
  refine ⟨b64url_roundtrip b h, fun c hc => ?_⟩
  have := isB64UrlChar_nice (uint8ArrayToBase64url_chars b h c hc)
  exact ⟨this.1, this.2.1, this.2.2.1⟩

/-- Witness for C10 at the concrete byte array `[0, 77, 255, 10, 128]`. -/
theorem base64url_codec_roundtrip_witness :
    base64urlToUint8Array (uint8ArrayToBase64url [0, 77, 255, 10, 128])
        = [0, 77, 255, 10, 128]
      ∧ ∀ c ∈ uint8ArrayToBase64url [0, 77, 255, 10, 128],
          c ≠ '+' ∧ c ≠ '/' ∧ c ≠ '=' :=
  base64url_codec_roundtrip [0, 77, 255, 10, 128] (by decide)

/-! ### Web Push payload encryption (`webpush.ts` lines 378–475)

The `crypto.subtle` primitives (HKDF-SHA256, P-256 ECDH, AES-128-GCM) are
taken as function parameters; the ephemeral key pair generated inside
`encryptPayload` is represented by the scalar `ephemeralPriv` and the random
16-byte salt by the `salt` parameter (in the source both come from the
platform's CSPRNG). -/

structure PushSubscriptionKeys where
  p256dh : String
  auth : String
deriving DecidableEq

structure PushSubscription where
  endpoint : String
  keys : PushSubscriptionKeys
deriving DecidableEq

structure VapidKeys where
  publicKey : String
  privateKey : String
  email : String
deriving DecidableEq

structure EncryptResult where
  encrypted : List Nat
  salt : List Nat
  localPublicKey : List Nat
deriving DecidableEq

/-- `new DataView(rsBytes.buffer).setUint32(0, rs)`: big-endian 4-byte
encoding of a 32-bit value. -/
def be32 (n : Nat) : List Nat :=
  [n / 16777216 % 256, n / 65536 % 256, n / 256 % 256, n % 256]

/-- `encryptPayload` (webpush.ts lines 378–475), RFC 8291 aes128gcm.

* `hkdf salt ikm info length` models `crypto.subtle.deriveBits` over HKDF-SHA256;
* `ecPublicKey k` is the raw 65-byte uncompressed export of the public key of
  the key pair whose private scalar is `k`;
* `ecdhSharedSecret k pub` models the 256-bit ECDH `deriveBits`;
* `aesGcmEncrypt key iv pt` models AES-128-GCM `encrypt` (tag included). -/
def encryptPayload
    (hkdf : List Nat → List Nat → List Nat → Nat → List Nat)
    (ecPublicKey : Nat → List Nat)
    (ecdhSharedSecret : Nat → List Nat → List Nat)
    (aesGcmEncrypt : List Nat → List Nat → List Nat → List Nat)
    (subscription : PushSubscription) (payload : String)
    (ephemeralPriv : Nat) (salt : List Nat) : EncryptResult :=
  let plaintext := strBytes payload
  let p256dhBytes := base64urlToUint8Array subscription.keys.p256dh.data
  let authBytes := base64urlToUint8Array subscription.keys.auth.data
  let localPublicKeyRaw := ecPublicKey ephemeralPriv
  let sharedSecret := ecdhSharedSecret ephemeralPriv p256dhBytes
  let ikmInfo := strBytes ("WebPush: info\x00") ++ p256dhBytes ++ localPublicKeyRaw
  let ikm := hkdf authBytes sharedSecret ikmInfo 32
  let cekInfo := strBytes ("Content-Encoding: aes128gcm\x00")
  let cek := hkdf salt ikm cekInfo 16
  let nonceInfo := strBytes ("Content-Encoding: nonce\x00")
  let nonce := hkdf salt ikm nonceInfo 12
  let paddedPlaintext := plaintext ++ [2]
  let ciphertext := aesGcmEncrypt cek nonce paddedPlaintext
  let rsBytes := be32 4096
  { encrypted := salt ++ rsBytes ++ [localPublicKeyRaw.length]
      ++ localPublicKeyRaw ++ ciphertext,
    salt := salt,
    localPublicKey := localPublicKeyRaw }

/-- C1: for every subscription and plaintext payload, the encrypted buffer
produced by `encryptPayload` is exactly
`salt(16B) || recordSize(4B big-endian = 4096) || keyIdLength(1B = 65) ||
ephemeralPublicKey(65B) || AES-128-GCM ciphertext of (plaintext ++ [0x02])`
and nothing else. -/
theorem encryptPayload_wire_format
    (hkdf : List Nat → List Nat → List Nat → Nat → List Nat)
    (ecPublicKey : Nat → List Nat)
    (ecdhSharedSecret : Nat → List Nat → List Nat)
    (aesGcmEncrypt : List Nat → List Nat → List Nat → List Nat)
    (subscription : PushSubscription) (payload : String)
    (ephemeralPriv : Nat) (salt : List Nat)
    (hsalt : salt.length = 16) (hpub : (ecPublicKey ephemeralPriv).length = 65) :
    (encryptPayload hkdf ecPublicKey ecdhSharedSecret aesGcmEncrypt
        subscription payload ephemeralPriv salt).encrypted
      = salt ++ [0, 0, 16, 0] ++ [65] ++ ecPublicKey ephemeralPriv
          ++ aesGcmEncrypt
              (hkdf salt
                (hkdf (base64urlToUint8Array subscription.keys.auth.data)
                  (ecdhSharedSecret ephemeralPriv
                    (base64urlToUint8Array subscription.keys.p256dh.data))
                  (strBytes ("WebPush: info\x00")
                    ++ base64urlToUint8Array subscription.keys.p256dh.data
                    ++ ecPublicKey ephemeralPriv) 32)
                (strBytes ("Content-Encoding: aes128gcm\x00")) 16)
              (hkdf salt
                (hkdf (base64urlToUint8Array subscription.keys.auth.data)
                  (ecdhSharedSecret ephemeralPriv
                    (base64urlToUint8Array subscription.keys.p256dh.data))
                  (strBytes ("WebPush: info\x00")
                    ++ base64urlToUint8Array subscription.keys.p256dh.data
                    ++ ecPublicKey ephemeralPriv) 32)
                (strBytes ("Content-Encoding: nonce\x00")) 12)
              (strBytes payload ++ [2])
      ∧ be32 4096 = [0, 0, 16, 0]
      ∧ salt.length = 16
      ∧ (encryptPayload hkdf ecPublicKey ecdhSharedSecret aesGcmEncrypt
          subscription payload ephemeralPriv salt).localPublicKey.length = 65 := by
  refine ⟨?_, by decide, hsalt, ?_⟩
  · simp only [encryptPayload]
    rw [hpub]
    rfl
  · simp only [encryptPayload]
    exact hpub

/-- C2: the key material in `encryptPayload` is derived in the exact chain
IKM = HKDF(auth secret, ECDH shared secret, "WebPush: info\0" || subscriber
public key || ephemeral public key, 32); CEK = HKDF(message salt, IKM,
"Content-Encoding: aes128gcm\0", 16); nonce = HKDF(message salt, IKM,
"Content-Encoding: nonce\0", 12), and the ciphertext in the output buffer is
AES-GCM under exactly that CEK and nonce. -/
theorem encryptPayload_key_derivation
    (hkdf : List Nat → List Nat → List Nat → Nat → List Nat)
    (ecPublicKey : Nat → List Nat)
    (ecdhSharedSecret : Nat → List Nat → List Nat)
    (aesGcmEncrypt : List Nat → List Nat → List Nat → List Nat)
    (subscription : PushSubscription) (payload : String)
    (ephemeralPriv : Nat) (salt : List Nat) :
    (encryptPayload hkdf ecPublicKey ecdhSharedSecret aesGcmEncrypt
        subscription payload ephemeralPriv salt).encrypted
      = salt ++ be32 4096 ++ [(ecPublicKey ephemeralPriv).length]
          ++ ecPublicKey ephemeralPriv
          ++ aesGcmEncrypt
              (hkdf salt
                (hkdf (base64urlToUint8Array subscription.keys.auth.data)
                  (ecdhSharedSecret ephemeralPriv
                    (base64urlToUint8Array subscription.keys.p256dh.data))
                  (strBytes ("WebPush: info\x00")
                    ++ base64urlToUint8Array subscription.keys.p256dh.data
                    ++ ecPublicKey ephemeralPriv) 32)
                (strBytes ("Content-Encoding: aes128gcm\x00")) 16)
              (hkdf salt
                (hkdf (base64urlToUint8Array subscription.keys.auth.data)
                  (ecdhSharedSecret ephemeralPriv
                    (base64urlToUint8Array subscription.keys.p256dh.data))
                  (strBytes ("WebPush: info\x00")
                    ++ base64urlToUint8Array subscription.keys.p256dh.data
                    ++ ecPublicKey ephemeralPriv) 32)
                (strBytes ("Content-Encoding: nonce\x00")) 12)
              (strBytes payload ++ [2]) := by
  simp only [encryptPayload]

/-! ### A concrete (toy, but law-abiding) instantiation of the abstract
`crypto.subtle` primitives, used only to witness the hypotheses of the
theorems above on closed inputs. -/

def toyHkdf (salt ikm info : List Nat) (length : Nat) : List Nat :=
  List.replicate length ((salt.sum + ikm.sum + info.sum + length) % 256)

def toyEcPublicKey (k : Nat) : List Nat := List.replicate 64 0 ++ [k % 256]

def toyEcdh (k : Nat) (pub : List Nat) : List Nat := [(k + pub.sum) % 256]

def toyAesEnc (key iv pt : List Nat) : List Nat := pt.reverse

def toyAesDec (key iv ct : List Nat) : Option (List Nat) := some ct.reverse

theorem toyEcdh_comm (a b : Nat) :
    toyEcdh a (toyEcPublicKey b) = toyEcdh b (toyEcPublicKey a) := by
  simp only [toyEcdh, toyEcPublicKey, List.sum_append, List.cons.injEq, and_true,
    List.sum_cons, List.sum_nil, List.sum_replicate, smul_zero, zero_add, add_zero]
  omega

theorem toyAes_roundtrip (key iv pt : List Nat) :
    toyAesDec key iv (toyAesEnc key iv pt) = some pt := by
  simp [toyAesDec, toyAesEnc]

theorem toyEcPublicKey_length (k : Nat) : (toyEcPublicKey k).length = 65 := by
  simp [toyEcPublicKey]

/-- Witness for C1: with the toy primitives, subscriber keys `"p"`/`"a"`,
payload `"hi"`, ephemeral scalar 5 and salt `replicate 16 7`, the buffer is
exactly the concrete concatenation. -/
theorem encryptPayload_wire_format_witness :
    (encryptPayload toyHkdf toyEcPublicKey toyEcdh toyAesEnc
        { endpoint := ("e"), keys := { p256dh := ("p"), auth := ("a") } }
        ("hi") 5 (List.replicate 16 7)).encrypted
      = List.replicate 16 7 ++ [0, 0, 16, 0] ++ [65]
          ++ (List.replicate 64 0 ++ [5]) ++ [2, 105, 104] := by
  have h := encryptPayload_wire_format toyHkdf toyEcPublicKey toyEcdh toyAesEnc
      { endpoint := ("e"), keys := { p256dh := ("p"), auth := ("a") } }
      ("hi") 5 (List.replicate 16 7) (by simp) (toyEcPublicKey_length 5)
  rw [h.1]
  decide

/-- Modelled from the spec: the RFC 8291 client-side inverse of
`encryptPayload` (the repository contains only the server side; the spec's
round-trip property appeals to the standard client decryption, "simulating
the client"). Parses the aes128gcm header
`salt(16) || rs(4) || idlen(1) || keyid(idlen) || ciphertext`, re-derives
IKM/CEK/nonce with the subscriber's private scalar and auth secret, decrypts,
and strips the single `0x02` delimiter byte. -/
def webPushClientDecrypt
    (hkdf : List Nat → List Nat → List Nat → Nat → List Nat)
    (ecPublicKey : Nat → List Nat)
    (ecdhSharedSecret : Nat → List Nat → List Nat)
    (aesGcmDecrypt : List Nat → List Nat → List Nat → Option (List Nat))
    (subscriberPriv : Nat) (authSecret : List Nat) (buf : List Nat) :
    Option (List Nat) :=
  let salt := buf.take 16
  let keyIdLen := buf.getD 20 0
  let serverPub := (buf.drop 21).take keyIdLen
  let ciphertext := buf.drop (21 + keyIdLen)
  let sharedSecret := ecdhSharedSecret subscriberPriv serverPub
  let ikmInfo := strBytes ("WebPush: info\x00")
    ++ ecPublicKey subscriberPriv ++ serverPub
  let ikm := hkdf authSecret sharedSecret ikmInfo 32
  let cek := hkdf salt ikm (strBytes ("Content-Encoding: aes128gcm\x00")) 16
  let nonce := hkdf salt ikm (strBytes ("Content-Encoding: nonce\x00")) 12
  match aesGcmDecrypt cek nonce ciphertext with
  | none => none
  | some padded =>
      match padded.getLast? with
      | some 2 => some padded.dropLast
      | _ => none

theorem aes128gcm_parse (salt rs pub ct : List Nat)
    (hsalt : salt.length = 16) (hrs : rs.length = 4) (hpub : pub.length = 65) :
    (salt ++ rs ++ [65] ++ pub ++ ct).take 16 = salt
    ∧ (salt ++ rs ++ [65] ++ pub ++ ct).getD 20 0 = 65
    ∧ ((salt ++ rs ++ [65] ++ pub ++ ct).drop 21).take 65 = pub
    ∧ (salt ++ rs ++ [65] ++ pub ++ ct).drop (21 + 65) = ct := by
  refine ⟨?_, ?_, ?_, ?_⟩
  · rw [show salt ++ rs ++ [65] ++ pub ++ ct
        = salt ++ (rs ++ ([65] ++ (pub ++ ct))) by simp [List.append_assoc]]
    exact List.take_left' hsalt
  · rw [show salt ++ rs ++ [65] ++ pub ++ ct
        = (salt ++ rs) ++ ((65 : Nat) :: (pub ++ ct)) by simp [List.append_assoc]]
    rw [List.getD_append_right _ _ _ _ (by simp [hsalt, hrs])]
    rw [show (20 : Nat) - (salt ++ rs).length = 0 by simp [hsalt, hrs]]
    rfl
  · rw [show salt ++ rs ++ [65] ++ pub ++ ct
        = ((salt ++ rs) ++ [65]) ++ (pub ++ ct) by simp [List.append_assoc]]
    rw [List.drop_left' (by simp [hsalt, hrs])]
    exact List.take_left' hpub
  · rw [show salt ++ rs ++ [65] ++ pub ++ ct
        = (((salt ++ rs) ++ [65]) ++ pub) ++ ct by simp [List.append_assoc]]
    exact List.drop_left' (by simp [hsalt, hrs, hpub])

/-- C3: for every plaintext of 1 byte up to 2KB and every valid subscriber
key pair with auth secret, decrypting an `encryptPayload` buffer with the
matching subscriber private key and auth secret (the RFC 8291 client-side
inverse) yields exactly the original plaintext. -/
theorem encrypt_decrypt_roundtrip
    (hkdf : List Nat → List Nat → List Nat → Nat → List Nat)
    (ecPublicKey : Nat → List Nat)
    (ecdhSharedSecret : Nat → List Nat → List Nat)
    (aesGcmEncrypt : List Nat → List Nat → List Nat → List Nat)
    (aesGcmDecrypt : List Nat → List Nat → List Nat → Option (List Nat))
    (subscription : PushSubscription) (payload : String)
    (subscriberPriv ephemeralPriv : Nat) (authSecret salt : List Nat)
    (hpub65 : ∀ k, (ecPublicKey k).length = 65)
    (hsalt : salt.length = 16)
    (hsub : base64urlToUint8Array subscription.keys.p256dh.data
      = ecPublicKey subscriberPriv)
    (hauth : base64urlToUint8Array subscription.keys.auth.data = authSecret)
    (hecdh : ∀ a b, ecdhSharedSecret a (ecPublicKey b)
      = ecdhSharedSecret b (ecPublicKey a))
    (haes : ∀ key iv pt, aesGcmDecrypt key iv (aesGcmEncrypt key iv pt) = some pt)
    (hlen1 : 1 ≤ (strBytes payload).length)
    (hlen2 : (strBytes payload).length ≤ 2048) :
    webPushClientDecrypt hkdf ecPublicKey ecdhSharedSecret aesGcmDecrypt
        subscriberPriv authSecret
        (encryptPayload hkdf ecPublicKey ecdhSharedSecret aesGcmEncrypt
          subscription payload ephemeralPriv salt).encrypted
      = some (strBytes payload) := by
  simp only [webPushClientDecrypt, encryptPayload]
  rw [show (ecPublicKey ephemeralPriv).length = 65 from hpub65 _]
  obtain ⟨p1, p2, p3, p4⟩ := aes128gcm_parse salt (be32 4096)
    (ecPublicKey ephemeralPriv)
    (aesGcmEncrypt
      (hkdf salt
        (hkdf (base64urlToUint8Array subscription.keys.auth.data)
          (ecdhSharedSecret ephemeralPriv
            (base64urlToUint8Array subscription.keys.p256dh.data))
          (strBytes ("WebPush: info\x00")
            ++ base64urlToUint8Array subscription.keys.p256dh.data
            ++ ecPublicKey ephemeralPriv) 32)
        (strBytes ("Content-Encoding: aes128gcm\x00")) 16)
      (hkdf salt
        (hkdf (base64urlToUint8Array subscription.keys.auth.data)
          (ecdhSharedSecret ephemeralPriv
            (base64urlToUint8Array subscription.keys.p256dh.data))
          (strBytes ("WebPush: info\x00")
            ++ base64urlToUint8Array subscription.keys.p256dh.data
            ++ ecPublicKey ephemeralPriv) 32)
        (strBytes ("Content-Encoding: nonce\x00")) 12)
      (strBytes payload ++ [2]))
    hsalt (by decide) (hpub65 _)
  rw [p2, p1, p3, p4]
  rw [hsub, hauth, hecdh ephemeralPriv subscriberPriv]
  rw [haes]
  simp [List.getLast?_concat, List.dropLast_concat]

/-- Witness for C3: concrete round trip with the toy primitives, subscriber
scalar 3, ephemeral scalar 5, payload `"hi"`. -/
theorem encrypt_decrypt_roundtrip_witness :
    webPushClientDecrypt toyHkdf toyEcPublicKey toyEcdh toyAesDec
        3 (List.replicate 16 1)
        (encryptPayload toyHkdf toyEcPublicKey toyEcdh toyAesEnc
          { endpoint := ("https://push.example/x"),
            keys := { p256dh := String.mk (uint8ArrayToBase64url (toyEcPublicKey 3)),
                      auth := String.mk (uint8ArrayToBase64url (List.replicate 16 1)) } }
          ("hi") 5 (List.replicate 16 7)).encrypted
      = some (strBytes ("hi")) := by
  refine encrypt_decrypt_roundtrip toyHkdf toyEcPublicKey toyEcdh toyAesEnc toyAesDec
    _ ("hi") 3 5 (List.replicate 16 1) (List.replicate 16 7)
    toyEcPublicKey_length (by simp) ?_ ?_ toyEcdh_comm toyAes_roundtrip
    (by decide) (by decide)
  · exact b64url_roundtrip (toyEcPublicKey 3) (by decide)
  · exact b64url_roundtrip (List.replicate 16 1) (by decide)

/-! ### VAPID JWT (`webpush.ts` lines 278–346)

ECDSA P-256/SHA-256 signing over the platform crypto is a parameter
`ecdsaSign priv msg` (the source imports the raw 32-byte scalar `d` as the
JWK signing key, so the parameter receives the decoded private-key bytes).
`JSON.stringify` on the two fixed-shape objects is modelled concretely,
including its string escaping. -/

/-- Lowercase hexadecimal digit, as `Number.prototype.toString(16)` emits. -/
def hexDigitChar (n : Nat) : Char :=
  if n < 10 then Char.ofNat (48 + n) else Char.ofNat (97 + (n - 10))

/-- `JSON.stringify` escaping of one character inside a string literal. -/
def jsonEscapeChar (c : Char) : List Char :=
  if c = '"' then ['\\', '"']
  else if c = '\\' then ['\\', '\\']
  else if c = '\x08' then ['\\', 'b']
  else if c = '\x09' then ['\\', 't']
  else if c = '\x0a' then ['\\', 'n']
  else if c = '\x0c' then ['\\', 'f']
  else if c = '\x0d' then ['\\', 'r']
  else if c.toNat < 32 then
    ['\\', 'u', '0', '0', hexDigitChar (c.toNat / 16), hexDigitChar (c.toNat % 16)]
  else [c]

/-- `JSON.stringify` of a string value. -/
def jsonString (s : String) : String :=
  String.mk ('"' :: (s.data.flatMap jsonEscapeChar ++ ['"']))

/-- `JSON.stringify({typ: "JWT", alg: "ES256"})`. -/
def vapidHeaderJson : String := "\x7b\"typ\":\"JWT\",\"alg\":\"ES256\"\x7d"

/-- `JSON.stringify({aud: audience, exp: expiry, sub: subject})`. -/
def vapidClaimsJson (audience : String) (expiry : Nat) (subject : String) : String :=
  "\x7b\"aud\":" ++ jsonString audience ++ ",\"exp\":" ++ toString expiry
    ++ ",\"sub\":" ++ jsonString subject ++ "\x7d"

/-- The `headerB64.payloadB64` part of the VAPID JWT, with `exp = now + 12h`
(webpush.ts lines 307–326). -/
def vapidUnsignedToken (audience : String) (now : Nat) (email : String) : String :=
  String.mk (uint8ArrayToBase64url (strBytes vapidHeaderJson))
    ++ "."
    ++ String.mk (uint8ArrayToBase64url
        (strBytes (vapidClaimsJson audience (now + 12 * 60 * 60) email)))

/-- The signed JWT (webpush.ts lines 328–340): ECDSA over the UTF-8 bytes of
the unsigned token, base64url-encoded, as third dot-segment. -/
def vapidJwt (ecdsaSign : List Nat → List Nat → List Nat)
    (vapid : VapidKeys) (audience : String) (now : Nat) : String :=
  vapidUnsignedToken audience now vapid.email
    ++ "."
    ++ String.mk (uint8ArrayToBase64url
        (ecdsaSign (base64urlToUint8Array vapid.privateKey.data)
          (strBytes (vapidUnsignedToken audience now vapid.email))))

structure VapidJwtResult where
  authorization : String
  cryptoKey : String
deriving DecidableEq

/-- `createVapidJwt` (webpush.ts lines 278–346). -/
def createVapidJwt (ecdsaSign : List Nat → List Nat → List Nat)
    (vapid : VapidKeys) (audience : String) (now : Nat) : VapidJwtResult :=
  { authorization := "vapid t=" ++ vapidJwt ecdsaSign vapid audience now
      ++ ",k=" ++ vapid.publicKey,
    cryptoKey := "p256ecdsa=" ++ vapid.publicKey }

/-- C4: `createVapidJwt` produces a JWT of three dot-separated base64url
segments: the first decodes to the JSON header `{typ:"JWT",alg:"ES256"}`,
the second decodes to the JSON claims with `aud` exactly the audience,
`exp = now + 12*60*60` and `sub` the contact email, and the third decodes to
an ECDSA P-256/SHA-256 signature over the UTF-8 bytes of the first two
segments joined by a dot that verifies against the VAPID public key; no
segment contains a dot. -/
theorem createVapidJwt_correct
    (ecdsaSign : List Nat → List Nat → List Nat)
    (ecdsaVerify : List Nat → List Nat → List Nat → Bool)
    (ecdsaPublicKeyOf : List Nat → List Nat)
    (vapid : VapidKeys) (audience : String) (now : Nat)
    (hver : ∀ priv msg,
      ecdsaVerify (ecdsaPublicKeyOf priv) msg (ecdsaSign priv msg) = true)
    (hkey : base64urlToUint8Array vapid.publicKey.data
      = ecdsaPublicKeyOf (base64urlToUint8Array vapid.privateKey.data))
    (hsig : ∀ x ∈ ecdsaSign (base64urlToUint8Array vapid.privateKey.data)
        (strBytes (vapidUnsignedToken audience now vapid.email)), x < 256) :
    (createVapidJwt ecdsaSign vapid audience now).authorization
      = "vapid t=" ++ vapidJwt ecdsaSign vapid audience now ++ ",k=" ++ vapid.publicKey
    ∧ vapidJwt ecdsaSign vapid audience now
      = String.mk (uint8ArrayToBase64url (strBytes vapidHeaderJson))
        ++ "."
        ++ String.mk (uint8ArrayToBase64url
            (strBytes (vapidClaimsJson audience (now + 12 * 60 * 60) vapid.email)))
        ++ "."
        ++ String.mk (uint8ArrayToBase64url
            (ecdsaSign (base64urlToUint8Array vapid.privateKey.data)
              (strBytes (vapidUnsignedToken audience now vapid.email))))
    ∧ base64urlToUint8Array (uint8ArrayToBase64url (strBytes vapidHeaderJson))
      = strBytes vapidHeaderJson
    ∧ base64urlToUint8Array (uint8ArrayToBase64url
        (strBytes (vapidClaimsJson audience (now + 12 * 60 * 60) vapid.email)))
      = strBytes (vapidClaimsJson audience (now + 12 * 60 * 60) vapid.email)
    ∧ ecdsaVerify (base64urlToUint8Array vapid.publicKey.data)
        (strBytes (vapidUnsignedToken audience now vapid.email))
        (base64urlToUint8Array (uint8ArrayToBase64url
          (ecdsaSign (base64urlToUint8Array vapid.privateKey.data)
            (strBytes (vapidUnsignedToken audience now vapid.email))))) = true
    ∧ (∀ c ∈ uint8ArrayToBase64url (strBytes vapidHeaderJson), c ≠ '.')
    ∧ (∀ c ∈ uint8ArrayToBase64url
        (strBytes (vapidClaimsJson audience (now + 12 * 60 * 60) vapid.email)), c ≠ '.')
    ∧ (∀ c ∈ uint8ArrayToBase64url
        (ecdsaSign (base64urlToUint8Array vapid.privateKey.data)
          (strBytes (vapidUnsignedToken audience now vapid.email))), c ≠ '.') := by
  refine ⟨rfl, rfl, b64url_roundtrip _ (strBytes_lt _), b64url_roundtrip _ (strBytes_lt _),
    ?_, ?_, ?_, ?_⟩
  · rw [b64url_roundtrip _ hsig, hkey, hver]
  · intro c hc
    exact (isB64UrlChar_nice (uint8ArrayToBase64url_chars _ (strBytes_lt _) c hc)).2.2.2
  · intro c hc
    exact (isB64UrlChar_nice (uint8ArrayToBase64url_chars _ (strBytes_lt _) c hc)).2.2.2
  · intro c hc
    exact (isB64UrlChar_nice (uint8ArrayToBase64url_chars _ hsig c hc)).2.2.2

/-! Toy ECDSA instantiation for the witness. -/

def toySign (priv msg : List Nat) : List Nat := (priv ++ msg).map (· % 256)

def toyPublicKeyOf (priv : List Nat) : List Nat := priv

def toyVerify (pub msg sig : List Nat) : Bool :=
  decide (sig = (pub ++ msg).map (· % 256))

theorem toyVerify_toySign (priv msg : List Nat) :
    toyVerify (toyPublicKeyOf priv) msg (toySign priv msg) = true := by
  simp [toyVerify, toyPublicKeyOf, toySign]

theorem toySign_lt (priv msg : List Nat) : ∀ x ∈ toySign priv msg, x < 256 := by
  intro x hx
  simp only [toySign, List.mem_map] at hx
  obtain ⟨y, _, rfl⟩ := hx
  omega

/-- Witness for C4: decoded claims and signature verification at concrete
inputs (audience `https://push.example`, `now = 1000`, toy ECDSA). -/
theorem createVapidJwt_correct_witness :
    base64urlToUint8Array (uint8ArrayToBase64url
        (strBytes (vapidClaimsJson ("https://push.example") (1000 + 12 * 60 * 60)
          ("mailto:a@b.c"))))
      = strBytes (vapidClaimsJson ("https://push.example") (1000 + 12 * 60 * 60)
          ("mailto:a@b.c"))
    ∧ toyVerify (base64urlToUint8Array ("AQID").data)
        (strBytes (vapidUnsignedToken ("https://push.example") 1000 ("mailto:a@b.c")))
        (base64urlToUint8Array (uint8ArrayToBase64url
          (toySign (base64urlToUint8Array ("AQID").data)
            (strBytes (vapidUnsignedToken ("https://push.example") 1000
              ("mailto:a@b.c")))))) = true := by
  have h := createVapidJwt_correct toySign toyVerify toyPublicKeyOf
    { publicKey := ("AQID"), privateKey := ("AQID"), email := ("mailto:a@b.c") }
    ("https://push.example") 1000 toyVerify_toySign rfl (toySign_lt _ _)
  exact ⟨h.2.2.2.1, h.2.2.2.2.1⟩

/-! ### Schedule store and `POST /api/schedule` (`index.ts` lines 63–114)

The D1 table `push_schedules` (schema.sql: `id TEXT PRIMARY KEY`) is
modelled as a list of rows; `INSERT OR REPLACE` keyed by the primary key
deletes any row with the same `id` and inserts the new one. SHA-256 and
`new Date(...)` parsing are platform primitives, taken as parameters.
`created_at` (a database-side default) plays no role in any claim and is
omitted from the row model. -/

structure ScheduleRow where
  id : String
  endpoint : String
  p256dh : String
  auth : String
  notify_at : Int
  title : String
  body : String
deriving DecidableEq

/-- The stable schedule id (index.ts lines 82–93): hex encoding of
SHA-256 of the endpoint, truncated by `slice(0, 64)` (a no-op for a 32-byte
digest). `hexByte` is `b.toString(16).padStart(2, "0")`. -/
def hexByte (b : Nat) : List Char := [hexDigitChar (b / 16), hexDigitChar (b % 16)]

def endpointId (sha256 : List Nat → List Nat) (endpoint : String) : String :=
  String.mk (((sha256 (strBytes endpoint)).flatMap hexByte).take 64)

/-- `INSERT OR REPLACE INTO push_schedules` with `id` the primary key. -/
def insertOrReplace (store : List ScheduleRow) (r : ScheduleRow) : List ScheduleRow :=
  r :: store.filter (fun row => row.id ≠ r.id)

structure SubscriptionKeysJson where
  p256dh : Option String
  auth : Option String
deriving DecidableEq

structure SubscriptionJson where
  endpoint : Option String
  keys : Option SubscriptionKeysJson
deriving DecidableEq

structure ScheduleRequest where
  subscription : Option SubscriptionJson
  notifyAt : Option String
  title : Option String
  body : Option String
deriving DecidableEq

/-- JavaScript falsiness of an optional string field (`undefined` or `""`). -/
def falsyStr (o : Option String) : Bool := decide (o.getD ("") = "")

/-- The `POST /api/schedule` handler (index.ts lines 63–114).
`parseDate` models `new Date(s).getTime()` (milliseconds; `none` for an
invalid date, `NaN`); the handler floors to seconds and rejects `NaN` and
values `≤ 0`. Returns the HTTP status and the new table state. -/
def postSchedule (sha256 : List Nat → List Nat) (parseDate : String → Option Int)
    (req : ScheduleRequest) (store : List ScheduleRow) : Nat × List ScheduleRow :=
  if falsyStr (req.subscription.bind (fun s => s.endpoint))
      || falsyStr ((req.subscription.bind (fun s => s.keys)).bind (fun k => k.p256dh))
      || falsyStr ((req.subscription.bind (fun s => s.keys)).bind (fun k => k.auth)) then
    (400, store)
  else if falsyStr req.notifyAt then
    (400, store)
  else
    match parseDate (req.notifyAt.getD ("")) with
    | none => (400, store)
    | some ms =>
        let notifyAtUnix := Int.fdiv ms 1000
        if notifyAtUnix ≤ 0 then (400, store)
        else
          let endpoint := (req.subscription.bind (fun s => s.endpoint)).getD ("")
          (200, insertOrReplace store
            { id := endpointId sha256 endpoint
              endpoint := endpoint
              p256dh := ((req.subscription.bind (fun s => s.keys)).bind
                (fun k => k.p256dh)).getD ("")
              auth := ((req.subscription.bind (fun s => s.keys)).bind
                (fun k => k.auth)).getD ("")
              notify_at := notifyAtUnix
              title := if falsyStr req.title then "HerDay Reminder"
                else req.title.getD ("")
              body := if falsyStr req.body then "Time to check your cycle!"
                else req.body.getD ("") })

/-- The table state after a sequence of `POST /api/schedule` requests,
starting from the empty table. -/
def applySchedules (sha256 : List Nat → List Nat) (parseDate : String → Option Int)
    (reqs : List ScheduleRequest) : List ScheduleRow :=
  reqs.foldl (fun store req => (postSchedule sha256 parseDate req store).2) []

/-- The store invariant maintained by the handler: ids are pairwise distinct
and every id is the content hash of its row's endpoint. -/
def storeInv (sha256 : List Nat → List Nat) (store : List ScheduleRow) : Prop :=
  store.Pairwise (fun r s => r.id ≠ s.id)
  ∧ ∀ r ∈ store, r.id = endpointId sha256 r.endpoint

theorem storeInv_insertOrReplace (sha256 : List Nat → List Nat)
    (store : List ScheduleRow) (r : ScheduleRow) (h : storeInv sha256 store)
    (hr : r.id = endpointId sha256 r.endpoint) :
    storeInv sha256 (insertOrReplace store r) := by
  constructor
  · rw [insertOrReplace, List.pairwise_cons]
    refine ⟨fun a ha => ?_, h.1.sublist (List.filter_sublist _)⟩
    have ha' : a.id ≠ r.id := by simpa using List.of_mem_filter ha
    exact fun he => ha' he.symm
  · intro a ha
    rcases List.mem_cons.mp ha with rfl | ha
    · exact hr
    · exact h.2 a (List.mem_of_mem_filter ha)

theorem postSchedule_snd (sha256 : List Nat → List Nat)
    (parseDate : String → Option Int) (req : ScheduleRequest)
    (store : List ScheduleRow) :
    (postSchedule sha256 parseDate req store).2 = store
    ∨ ∃ r : ScheduleRow, r.id = endpointId sha256 r.endpoint
        ∧ (postSchedule sha256 parseDate req store).2 = insertOrReplace store r := by
  simp only [postSchedule]
  split
  · left; rfl
  · split
    · left; rfl
    · split
      · left; rfl
      · split
        · left; rfl
        · right; exact ⟨_, rfl, rfl⟩

theorem storeInv_postSchedule (sha256 : List Nat → List Nat)
    (parseDate : String → Option Int) (req : ScheduleRequest)
    (store : List ScheduleRow) (h : storeInv sha256 store) :
    storeInv sha256 (postSchedule sha256 parseDate req store).2 := by
  rcases postSchedule_snd sha256 parseDate req store with heq | ⟨r, hr, heq⟩
  · rw [heq]; exact h
  · rw [heq]; exact storeInv_insertOrReplace sha256 store r h hr

theorem storeInv_foldl (sha256 : List Nat → List Nat)
    (parseDate : String → Option Int) :
    ∀ (reqs : List ScheduleRequest) (store : List ScheduleRow),
      storeInv sha256 store →
      storeInv sha256 (reqs.foldl
        (fun st req => (postSchedule sha256 parseDate req st).2) store) := by
  intro reqs
  induction reqs with
  | nil => exact fun store h => h
  | cons req rest ih =>
      intro store h
      exact ih _ (storeInv_postSchedule sha256 parseDate req store h)

theorem storeInv_endpoints (sha256 : List Nat → List Nat)
    (store : List ScheduleRow) (h : storeInv sha256 store) :
    store.Pairwise (fun r s => r.endpoint ≠ s.endpoint) := by
  refine h.1.imp_of_mem ?_
  intro a b ha hb hid he
  exact hid ((h.2 a ha).trans (he ▸ (h.2 b hb).symm))

theorem hexDigitChar_inj_fin :
    ∀ i j : Fin 16, hexDigitChar i.val = hexDigitChar j.val → i = j := by decide

theorem flatMap_hexByte_length (l : List Nat) :
    (l.flatMap hexByte).length = 2 * l.length := by
  induction l with
  | nil => rfl
  | cons a t ih =>
      simp only [List.flatMap_cons, List.length_append, ih, hexByte,
        List.length_cons, List.length_nil]
      omega

theorem flatMap_hexByte_inj :
    ∀ (l1 l2 : List Nat), (∀ x ∈ l1, x < 256) → (∀ x ∈ l2, x < 256) →
      l1.flatMap hexByte = l2.flatMap hexByte → l1 = l2 := by
  intro l1
  induction l1 with
  | nil =>
      intro l2 _ _ h
      cases l2 with
      | nil => rfl
      | cons b t => simp [hexByte] at h
  | cons a t ih =>
      intro l2 h1 h2 h
      cases l2 with
      | nil => simp [hexByte] at h
      | cons b t2 =>
          have ha : a < 256 := h1 a (by simp)
          have hb : b < 256 := h2 b (by simp)
          simp only [List.flatMap_cons, hexByte, List.cons_append, List.nil_append,
            List.cons.injEq] at h
          obtain ⟨hd1, hd2, hrest⟩ := h
          have e1 : a / 16 = b / 16 := by
            have := hexDigitChar_inj_fin ⟨a / 16, by omega⟩ ⟨b / 16, by omega⟩ hd1
            simpa using congrArg Fin.val this
          have e2 : a % 16 = b % 16 := by
            have := hexDigitChar_inj_fin ⟨a % 16, by omega⟩ ⟨b % 16, by omega⟩ hd2
            simpa using congrArg Fin.val this
          have : a = b := by omega
          subst this
          exact congrArg (a :: ·)
            (ih t2 (fun x hx => h1 x (by simp [hx])) (fun x hx => h2 x (by simp [hx])) hrest)

/-- C5: the schedule id is a deterministic function of the endpoint alone
(hex-encoded SHA-256; distinct digests give distinct ids), and every sequence
of `POST /api/schedule` requests keeps the table free of duplicate ids and
duplicate endpoints: re-submitting for an existing endpoint replaces the row. -/
theorem schedule_id_upsert_invariant
    (sha256 : List Nat → List Nat) (parseDate : String → Option Int) :
    (∀ reqs : List ScheduleRequest,
      (applySchedules sha256 parseDate reqs).Pairwise (fun r s => r.id ≠ s.id)
      ∧ (applySchedules sha256 parseDate reqs).Pairwise
          (fun r s => r.endpoint ≠ s.endpoint)
      ∧ ∀ r ∈ applySchedules sha256 parseDate reqs,
          r.id = endpointId sha256 r.endpoint)
    ∧ ∀ e1 e2 : String,
        (∀ x ∈ sha256 (strBytes e1), x < 256) →
        (∀ x ∈ sha256 (strBytes e2), x < 256) →
        (sha256 (strBytes e1)).length = 32 →
        (sha256 (strBytes e2)).length = 32 →
        sha256 (strBytes e1) ≠ sha256 (strBytes e2) →
        endpointId sha256 e1 ≠ endpointId sha256 e2 := by
  constructor
  · intro reqs
    have h := storeInv_foldl sha256 parseDate reqs []
      ⟨List.Pairwise.nil, by intro r hr; cases hr⟩
    exact ⟨h.1, storeInv_endpoints sha256 _ h, h.2⟩
  · intro e1 e2 hb1 hb2 hl1 hl2 hneq heq
    apply hneq
    have t1 : ((sha256 (strBytes e1)).flatMap hexByte).take 64
        = (sha256 (strBytes e1)).flatMap hexByte :=
      List.take_of_length_le (by rw [flatMap_hexByte_length, hl1])
    have t2 : ((sha256 (strBytes e2)).flatMap hexByte).take 64
        = (sha256 (strBytes e2)).flatMap hexByte :=
      List.take_of_length_le (by rw [flatMap_hexByte_length, hl2])
    rw [endpointId, endpointId, t1, t2] at heq
    exact flatMap_hexByte_inj _ _ hb1 hb2 (congrArg String.data heq)

/-! Concrete instantiations for witnesses and counterexamples of the HTTP
layer. -/

def toySha (l : List Nat) : List Nat := List.replicate 31 0 ++ [l.sum % 256]

/-- A date parser under which every submitted string denotes
1970-01-01T00:16:40Z, i.e. 1 000 000 ms = unix second 1000 — far in the past
of any realistic server clock. -/
def pastParse : String → Option Int := fun _ => some 1000000

/-- A date parser under which every submitted string denotes unix second
2 000 000 000 (year 2033). -/
def futureParse : String → Option Int := fun _ => some 2000000000000

def demoScheduleReq : ScheduleRequest :=
  { subscription := some
      { endpoint := some ("https://push.example/device1"),
        keys := some { p256dh := some ("pk"), auth := some ("as") } },
    notifyAt := some ("2001-09-09T01:46:40Z"),
    title := none,
    body := none }

/-- Witness for C5: distinct digests give distinct ids, and a concrete
request sequence yields a duplicate-free table. -/
theorem schedule_id_upsert_invariant_witness :
    endpointId toySha ("a") ≠ endpointId toySha ("b")
    ∧ (applySchedules toySha pastParse [demoScheduleReq]).Pairwise
        (fun r s => r.id ≠ s.id) := by
  have h := schedule_id_upsert_invariant toySha pastParse
  exact ⟨h.2 ("a") ("b") (by decide) (by decide) (by decide) (by decide) (by decide),
    (h.1 [demoScheduleReq]).1⟩

/-- The row `POST /api/schedule` upserts for request `req` when the parsed
date is `ms` milliseconds (index.ts lines 95–108). -/
def scheduledRowOf (sha256 : List Nat → List Nat) (req : ScheduleRequest)
    (ms : Int) : ScheduleRow :=
  { id := endpointId sha256 ((req.subscription.bind (fun s => s.endpoint)).getD ("")),
    endpoint := (req.subscription.bind (fun s => s.endpoint)).getD (""),
    p256dh := ((req.subscription.bind (fun s => s.keys)).bind
      (fun k => k.p256dh)).getD (""),
    auth := ((req.subscription.bind (fun s => s.keys)).bind
      (fun k => k.auth)).getD (""),
    notify_at := Int.fdiv ms 1000,
    title := if falsyStr req.title then "HerDay Reminder" else req.title.getD (""),
    body := if falsyStr req.body then "Time to check your cycle!"
      else req.body.getD ("") }

/-- C7 counterexample: a request whose `notifyAt` parses to unix second 1000
(1970-01-01T00:16:40Z) — in the past of any realistic server clock, e.g.
1 700 000 000 — is answered `200` and a row IS inserted: the handler never
compares `notifyAt` with the server clock, contradicting the claim that a
non-future `notifyAt` yields `400` with no row. -/
theorem postSchedule_accepts_past_date :
    (postSchedule toySha pastParse demoScheduleReq []).1 = 200
    ∧ (postSchedule toySha pastParse demoScheduleReq []).2.map
        (fun r => r.notify_at) = [1000]
    ∧ (1000 : Int) < 1700000000 := by
  refine ⟨rfl, ?_, by decide⟩
  rfl

/-- C7 (amended): `POST /api/schedule` responds 400 with the table unchanged
when the subscription fields are missing/empty, when `notifyAt` is
missing/empty, when it fails to parse, or when it parses to a unix timestamp
`≤ 0`; with a valid subscription and a `notifyAt` parsing to a positive unix
timestamp it responds 200 and upserts — with no check that the timestamp is
in the future. -/
theorem postSchedule_validation (sha256 : List Nat → List Nat)
    (parseDate : String → Option Int) (req : ScheduleRequest)
    (store : List ScheduleRow) :
    ((falsyStr (req.subscription.bind (fun s => s.endpoint))
        || falsyStr ((req.subscription.bind (fun s => s.keys)).bind (fun k => k.p256dh))
        || falsyStr ((req.subscription.bind (fun s => s.keys)).bind (fun k => k.auth)))
        = true →
      postSchedule sha256 parseDate req store = (400, store))
    ∧ ((falsyStr (req.subscription.bind (fun s => s.endpoint))
        || falsyStr ((req.subscription.bind (fun s => s.keys)).bind (fun k => k.p256dh))
        || falsyStr ((req.subscription.bind (fun s => s.keys)).bind (fun k => k.auth)))
        = false →
      falsyStr req.notifyAt = true →
      postSchedule sha256 parseDate req store = (400, store))
    ∧ ((falsyStr (req.subscription.bind (fun s => s.endpoint))
        || falsyStr ((req.subscription.bind (fun s => s.keys)).bind (fun k => k.p256dh))
        || falsyStr ((req.subscription.bind (fun s => s.keys)).bind (fun k => k.auth)))
        = false →
      falsyStr req.notifyAt = false →
      parseDate (req.notifyAt.getD ("")) = none →
      postSchedule sha256 parseDate req store = (400, store))
    ∧ (∀ ms : Int,
      (falsyStr (req.subscription.bind (fun s => s.endpoint))
        || falsyStr ((req.subscription.bind (fun s => s.keys)).bind (fun k => k.p256dh))
        || falsyStr ((req.subscription.bind (fun s => s.keys)).bind (fun k => k.auth)))
        = false →
      falsyStr req.notifyAt = false →
      parseDate (req.notifyAt.getD ("")) = some ms →
      Int.fdiv ms 1000 ≤ 0 →
      postSchedule sha256 parseDate req store = (400, store))
    ∧ (∀ ms : Int,
      (falsyStr (req.subscription.bind (fun s => s.endpoint))
        || falsyStr ((req.subscription.bind (fun s => s.keys)).bind (fun k => k.p256dh))
        || falsyStr ((req.subscription.bind (fun s => s.keys)).bind (fun k => k.auth)))
        = false →
      falsyStr req.notifyAt = false →
      parseDate (req.notifyAt.getD ("")) = some ms →
      0 < Int.fdiv ms 1000 →
      postSchedule sha256 parseDate req store
        = (200, insertOrReplace store (scheduledRowOf sha256 req ms))) := by
  refine ⟨?_, ?_, ?_, ?_, ?_⟩
  · intro h
    simp only [postSchedule]
    rw [if_pos h]
  · intro hsub hnot
    simp only [postSchedule]
    rw [if_neg (by simp [hsub]), if_pos hnot]
  · intro hsub hnot hp
    simp only [postSchedule, hp]
    rw [if_neg (by simp [hsub]), if_neg (by simp [hnot])]
  · intro ms hsub hnot hp hle
    simp only [postSchedule, hp]
    rw [if_neg (by simp [hsub]), if_neg (by simp [hnot]), if_pos hle]
  · intro ms hsub hnot hp hpos
    simp only [postSchedule, hp]
    rw [if_neg (by simp [hsub]), if_neg (by simp [hnot]),
      if_neg (not_le.mpr hpos)]
    simp [scheduledRowOf]

/-- Witness for C7 (amended): a valid request with a positive parsed
timestamp gets 200; a missing `notifyAt` gets 400 with the table unchanged. -/
theorem postSchedule_validation_witness :
    (postSchedule toySha futureParse demoScheduleReq []).1 = 200
    ∧ postSchedule toySha pastParse
        { demoScheduleReq with notifyAt := none } [] = (400, []) := by
  constructor
  · have h := (postSchedule_validation toySha futureParse demoScheduleReq []).2.2.2.2
      2000000000000 (by decide) (by decide) rfl (by decide)
    rw [h]
  · exact (postSchedule_validation toySha pastParse
      { demoScheduleReq with notifyAt := none } []).2.1 (by decide) (by decide)

/-! ### Dispatcher sweep (`index.ts` lines 155–198) and push sender
(`webpush.ts` lines 479–513)

`sendPushNotification` resolves in the source to
`{success, status, message}` when `fetch` resolves and rejects (throws) when
`fetch` rejects; the dispatcher calls it under `try/catch` per row and
deletes the row afterwards in either case. The per-row outcome is therefore
modelled as `Except String SendResult`, and the sweep logs one
`(id, outcome)` entry per due row. -/

structure SendResult where
  success : Bool
  status : Nat
  message : String
deriving DecidableEq

/-- `processDueNotifications` (index.ts lines 155–198): select the rows with
`notify_at <= now`, then for each row attempt the send (`try/catch`) and
delete the row by id regardless of the outcome. Returns the final table and
the log of attempts. -/
def processDueNotifications (send : ScheduleRow → Except String SendResult)
    (now : Int) (store : List ScheduleRow) :
    List ScheduleRow × List (String × Except String SendResult) :=
  let dueRows := store.filter (fun r => r.notify_at ≤ now)
  dueRows.foldl
    (fun acc row =>
      (acc.1.filter (fun r => r.id ≠ row.id), acc.2 ++ [(row.id, send row)]))
    (store, [])

theorem processDue_foldl (send : ScheduleRow → Except String SendResult) :
    ∀ (due : List ScheduleRow) (st : List ScheduleRow)
      (log : List (String × Except String SendResult)),
      due.foldl
        (fun acc row =>
          (acc.1.filter (fun r => r.id ≠ row.id), acc.2 ++ [(row.id, send row)]))
        (st, log)
      = (st.filter (fun r => r.id ∉ due.map (fun x => x.id)),
         log ++ due.map (fun row => (row.id, send row))) := by
  intro due
  induction due with
  | nil =>
      intro st log
      simp
  | cons row rest ih =>
      intro st log
      rw [List.foldl_cons, ih]
      refine Prod.ext ?_ ?_
      · show (st.filter (fun r => r.id ≠ row.id)).filter
            (fun r => r.id ∉ rest.map (fun x => x.id))
          = st.filter (fun r => r.id ∉ (row :: rest).map (fun x => x.id))
        rw [List.filter_filter]
        refine List.filter_congr ?_
        intro a _
        by_cases h1 : a.id = row.id <;>
          by_cases h2 : a.id ∈ rest.map (fun x => x.id) <;>
            simp [h1, h2]
      · show (log ++ [(row.id, send row)])
            ++ rest.map (fun r => (r.id, send r))
          = log ++ (row :: rest).map (fun r => (r.id, send r))
        simp

theorem processDue_spec_helper (send : ScheduleRow → Except String SendResult)
    (now : Int) (store : List ScheduleRow)
    (hid : store.Pairwise (fun r s => r.id ≠ s.id)) :
    (processDueNotifications send now store).1
      = store.filter (fun r => ¬ (r.notify_at ≤ now))
    ∧ (processDueNotifications send now store).2
      = (store.filter (fun r => r.notify_at ≤ now)).map
          (fun row => (row.id, send row)) := by
  have hsym : Symmetric (fun r s : ScheduleRow => r.id ≠ s.id) :=
    fun _ _ h => h.symm
  unfold processDueNotifications
  rw [processDue_foldl]
  refine ⟨?_, by simp⟩
  show store.filter
      (fun r => r.id ∉ (store.filter (fun r => r.notify_at ≤ now)).map
        (fun x => x.id))
    = store.filter (fun r => ¬ (r.notify_at ≤ now))
  refine List.filter_congr ?_
  intro r hr
  simp only [decide_eq_decide]
  constructor
  · intro hnot hle
    exact hnot (List.mem_map.mpr
      ⟨r, List.mem_filter.mpr ⟨hr, by simpa using hle⟩, rfl⟩)
  · intro hnd hmem
    obtain ⟨s, hs, hsid⟩ := List.mem_map.mp hmem
    have hsmem := List.mem_of_mem_filter hs
    have hsdue : s.notify_at ≤ now := by simpa using List.of_mem_filter hs
    have hrs : r ≠ s := by
      intro h
      exact hnd (h ▸ hsdue)
    exact (hid.forall hsym hr hsmem hrs) hsid.symm

/-- C6: in each Dispatcher sweep, every row with `notify_at > now` persists
unchanged (it is neither sent nor deleted), and every row with
`notify_at ≤ now` receives exactly one send attempt (in table order) and is
deleted afterwards, whatever the outcome of the attempt — `send` is an
arbitrary function into success, rejection or thrown error, and the final
table does not depend on it. -/
theorem processDueNotifications_sweep
    (send : ScheduleRow → Except String SendResult) (now : Int)
    (store : List ScheduleRow)
    (hid : store.Pairwise (fun r s => r.id ≠ s.id)) :
    (processDueNotifications send now store).1
      = store.filter (fun r => ¬ (r.notify_at ≤ now))
    ∧ (processDueNotifications send now store).2
      = (store.filter (fun r => r.notify_at ≤ now)).map
          (fun row => (row.id, send row)) :=
  processDue_spec_helper send now store hid

def demoRowDue : ScheduleRow :=
  { id := ("a"), endpoint := ("https://push.example/1"), p256dh := ("p1"),
    auth := ("s1"), notify_at := 10, title := ("t"), body := ("b") }

def demoRowLater : ScheduleRow :=
  { id := ("b"), endpoint := ("https://push.example/2"), p256dh := ("p2"),
    auth := ("s2"), notify_at := 99, title := ("t"), body := ("b") }

def demoSendFail : ScheduleRow → Except String SendResult :=
  fun _ => Except.error ("delivery failed")

/-- Witness for C6: sweep at `now = 50` over a due row and a future row. -/
theorem processDueNotifications_sweep_witness :
    (processDueNotifications demoSendFail 50 [demoRowDue, demoRowLater]).1
      = List.filter (fun r => ¬ (r.notify_at ≤ 50)) [demoRowDue, demoRowLater]
    ∧ (processDueNotifications demoSendFail 50 [demoRowDue, demoRowLater]).2
      = (List.filter (fun r => r.notify_at ≤ 50) [demoRowDue, demoRowLater]).map
          (fun row => (row.id, demoSendFail row)) :=
  processDueNotifications_sweep demoSendFail 50 [demoRowDue, demoRowLater]
    (by decide)

/-- C8: a thrown error from `sendPushNotification` on one due row is caught
per-row: the failing row's error is logged, every due row (the failing one
included) still gets exactly its one attempt, and the deletion of due rows
is unaffected. -/
theorem processDueNotifications_error_isolation
    (send : ScheduleRow → Except String SendResult) (now : Int)
    (store : List ScheduleRow) (bad : ScheduleRow) (e : String)
    (hid : store.Pairwise (fun r s => r.id ≠ s.id))
    (hmem : bad ∈ store) (hdue : bad.notify_at ≤ now)
    (herr : send bad = Except.error e) :
    (bad.id, Except.error e) ∈ (processDueNotifications send now store).2
    ∧ (processDueNotifications send now store).2.map Prod.fst
      = (store.filter (fun r => r.notify_at ≤ now)).map (fun r => r.id)
    ∧ (processDueNotifications send now store).1
      = store.filter (fun r => ¬ (r.notify_at ≤ now)) := by
  obtain ⟨h1, h2⟩ := processDue_spec_helper send now store hid
  refine ⟨?_, ?_, h1⟩
  · rw [h2]
    refine List.mem_map.mpr ⟨bad, List.mem_filter.mpr ⟨hmem, by simpa using hdue⟩, ?_⟩
    rw [herr]
  · rw [h2, List.map_map]
    rfl

/-- Witness for C8: with a send function that throws on the due row `"a"`,
the error is logged, the attempt list still covers exactly the due rows, and
the future row persists while the due row is deleted. -/
theorem processDueNotifications_error_isolation_witness :
    (demoRowDue.id, Except.error ("delivery failed"))
      ∈ (processDueNotifications demoSendFail 50 [demoRowDue, demoRowLater]).2
    ∧ (processDueNotifications demoSendFail 50 [demoRowDue, demoRowLater]).2.map
        Prod.fst
      = (List.filter (fun r => r.notify_at ≤ 50) [demoRowDue, demoRowLater]).map
          (fun r => r.id)
    ∧ (processDueNotifications demoSendFail 50 [demoRowDue, demoRowLater]).1
      = List.filter (fun r => ¬ (r.notify_at ≤ 50)) [demoRowDue, demoRowLater] :=
  processDueNotifications_error_isolation demoSendFail 50
    [demoRowDue, demoRowLater] demoRowDue ("delivery failed")
    (by decide) (by decide) (by decide) rfl

/-! ### `sendPushNotification` (`webpush.ts` lines 479–513)

The function issues exactly one `fetch` POST. In the source there is no
`try/catch` around `fetch`: when the network request rejects, the rejection
propagates to the caller. The model returns the list of HTTP requests issued
(always exactly one) together with `Except`: `Except.ok` is the resolved
`{success, status, message}` value, `Except.error` a propagated exception. -/

structure HttpRequest where
  url : String
  headers : List (String × String)
  body : List Nat
deriving DecidableEq

structure HttpResponse where
  status : Nat
  statusText : String
deriving DecidableEq

structure PushPayload where
  title : String
  body : String
  url : Option String
deriving DecidableEq

/-- `JSON.stringify({title, body, url})` (webpush.ts line 491); an absent
`url` field is omitted, as `JSON.stringify` drops `undefined` properties. -/
def jsonStringifyPayload (p : PushPayload) : String :=
  "\x7b\"title\":" ++ jsonString p.title ++ ",\"body\":" ++ jsonString p.body
    ++ (match p.url with
        | none => ""
        | some u => ",\"url\":" ++ jsonString u)
    ++ "\x7d"

/-- The single HTTP POST `sendPushNotification` issues. -/
def pushHttpRequest
    (hkdf : List Nat → List Nat → List Nat → Nat → List Nat)
    (ecPublicKey : Nat → List Nat)
    (ecdhSharedSecret : Nat → List Nat → List Nat)
    (aesGcmEncrypt : List Nat → List Nat → List Nat → List Nat)
    (ecdsaSign : List Nat → List Nat → List Nat)
    (originOf : String → String)
    (subscription : PushSubscription) (payload : PushPayload) (vapid : VapidKeys)
    (now ephemeralPriv : Nat) (salt : List Nat) : HttpRequest :=
  let audience := originOf subscription.endpoint
  let auth := createVapidJwt ecdsaSign vapid audience now
  { url := subscription.endpoint,
    headers := [(("Authorization"), auth.authorization),
      (("Crypto-Key"), auth.cryptoKey),
      (("Content-Type"), ("application/octet-stream")),
      (("Content-Encoding"), ("aes128gcm")),
      (("TTL"), ("86400")),
      (("Urgency"), ("normal"))],
    body := (encryptPayload hkdf ecPublicKey ecdhSharedSecret aesGcmEncrypt
      subscription (jsonStringifyPayload payload) ephemeralPriv salt).encrypted }

/-- `sendPushNotification` (webpush.ts lines 479–513). `originOf` models
`new URL(endpoint)` and yields `protocol + "//" + host`; `fetchImpl` models
`fetch` (`Except.error` = rejected promise / network failure). -/
def sendPushNotification
    (fetchImpl : HttpRequest → Except String HttpResponse)
    (hkdf : List Nat → List Nat → List Nat → Nat → List Nat)
    (ecPublicKey : Nat → List Nat)
    (ecdhSharedSecret : Nat → List Nat → List Nat)
    (aesGcmEncrypt : List Nat → List Nat → List Nat → List Nat)
    (ecdsaSign : List Nat → List Nat → List Nat)
    (originOf : String → String)
    (subscription : PushSubscription) (payload : PushPayload) (vapid : VapidKeys)
    (now ephemeralPriv : Nat) (salt : List Nat) :
    List HttpRequest × Except String SendResult :=
  let req := pushHttpRequest hkdf ecPublicKey ecdhSharedSecret aesGcmEncrypt
    ecdsaSign originOf subscription payload vapid now ephemeralPriv salt
  ([req],
    match fetchImpl req with
    | Except.error e => Except.error e
    | Except.ok response =>
        Except.ok { success := decide (200 ≤ response.status ∧ response.status < 300),
                    status := response.status,
                    message := response.statusText })

def demoSubscription : PushSubscription :=
  { endpoint := ("https://push.example/x"),
    keys := { p256dh := ("p"), auth := ("a") } }

def demoPayload : PushPayload :=
  { title := ("T"), body := ("B"), url := some ("/") }

def demoVapid : VapidKeys :=
  { publicKey := ("AQID"), privateKey := ("AQID"), email := ("mailto:a@b.c") }

def failFetch : HttpRequest → Except String HttpResponse :=
  fun _ => Except.error ("network unreachable")

/-- C9 counterexample: when the network request fails, `sendPushNotification`
does NOT return an outcome value — the failure propagates to the caller as an
exception (`Except.error`), because the source has no `try/catch` around
`fetch` and no `unreachable` outcome; so the claimed tri-state contract is
false at this input. -/
theorem sendPushNotification_network_failure :
    (sendPushNotification failFetch toyHkdf toyEcPublicKey toyEcdh toyAesEnc
        toySign (fun _ => ("https://push.example")) demoSubscription demoPayload
        demoVapid 1000 5 (List.replicate 16 7)).2
      = Except.error ("network unreachable") := rfl

/-- C9 (amended): `sendPushNotification` performs exactly one delivery
attempt, with no retry; when the push service responds it returns
`{success := (2xx), status, message}` (delivered vs rejected is the `success`
flag of this single returned value); when the network request fails, the
exception propagates to the caller instead of being returned as an outcome. -/
theorem sendPushNotification_contract
    (fetchImpl : HttpRequest → Except String HttpResponse)
    (hkdf : List Nat → List Nat → List Nat → Nat → List Nat)
    (ecPublicKey : Nat → List Nat)
    (ecdhSharedSecret : Nat → List Nat → List Nat)
    (aesGcmEncrypt : List Nat → List Nat → List Nat → List Nat)
    (ecdsaSign : List Nat → List Nat → List Nat)
    (originOf : String → String)
    (subscription : PushSubscription) (payload : PushPayload) (vapid : VapidKeys)
    (now ephemeralPriv : Nat) (salt : List Nat) :
    sendPushNotification fetchImpl hkdf ecPublicKey ecdhSharedSecret
        aesGcmEncrypt ecdsaSign originOf subscription payload vapid now
        ephemeralPriv salt
      = ([pushHttpRequest hkdf ecPublicKey ecdhSharedSecret aesGcmEncrypt
            ecdsaSign originOf subscription payload vapid now ephemeralPriv salt],
         match fetchImpl (pushHttpRequest hkdf ecPublicKey ecdhSharedSecret
            aesGcmEncrypt ecdsaSign originOf subscription payload vapid now
            ephemeralPriv salt) with
         | Except.error e => Except.error e
         | Except.ok response =>
             Except.ok { success := decide (200 ≤ response.status ∧ response.status < 300),
                         status := response.status,
                         message := response.statusText }) := rfl
